import Mathlib

/-!
Verification of the multi-step agent orchestration engine of the
`ai-code-editor` backend: the Memory-based `run_flow` in
`server/agents.py` (the implementation the specification follows) and the
`ConversationMemory` class in `server/memory.py`.

Modelling conventions:
* Python values that can appear as a message `content` are modelled by the
  JSON-like type `JValue` (every content actually stored by `run_flow` is a
  string, or a dict/list obtained from `json.loads` / `run_tool`).
* Numeric JSON payloads are modelled as `Int`; no claim depends on numeric
  content.
* The standard-library functions `json.loads`, the model HTTP call `ask`
  and the tool dispatcher `run_tool` (external collaborators per the spec)
  are parameters of the orchestrator definitions.
* Exceptions are modelled with `Except`.
-/

/-- Concatenation of a list of strings (Python `"".join` shape, used to
state rendering results). -/
def strConcat : List String → String
  | [] => ""
  | s :: rest => s ++ strConcat rest

/-- Python `str.strip()`: drop leading and trailing whitespace. -/
def pyStrip (s : String) : String :=
  ⟨((s.data.dropWhile Char.isWhitespace).reverse.dropWhile Char.isWhitespace).reverse⟩

/-- Does the second list start with the first one? -/
def listStartsWith : List Char → List Char → Bool
  | [], _ => true
  | _ :: _, [] => false
  | p :: ps, c :: cs => p == c && listStartsWith ps cs

/-- Fuel-indexed core of Python `str.replace`: replace every
left-to-right, non-overlapping occurrence of `pat`.  The fuel only makes
the recursion structural; `pyReplace` supplies enough fuel for the whole
input (one unit per produced character). -/
def replaceGo (pat rep : List Char) : Nat → List Char → List Char
  | 0, l => l
  | _ + 1, [] => []
  | fuel + 1, c :: cs =>
    if pat.length ≠ 0 && listStartsWith pat (c :: cs) then
      rep ++ replaceGo pat rep fuel (List.drop pat.length (c :: cs))
    else
      c :: replaceGo pat rep fuel cs

/-- Python `s.replace(pat, rep)` (the patterns used by `run_flow` are all
non-empty, so the empty-pattern corner of CPython is irrelevant). -/
def pyReplace (s pat rep : String) : String :=
  ⟨replaceGo pat.data rep.data s.data.length s.data⟩

/-- JSON-like values: the Python values that `json.loads` produces and
that `run_flow` stores as message contents. -/
inductive JValue where
  | null : JValue
  | bool : Bool → JValue
  | num : Int → JValue
  | str : String → JValue
  | arr : List JValue → JValue
  | obj : List (String × JValue) → JValue

/-- First-match association lookup: Python `dict.get` restricted to the
string-keyed dicts produced by `json.loads` (whose keys are unique). -/
def assocLookup {α : Type} : List (String × α) → String → Option α
  | [], _ => none
  | (k, v) :: rest, key => if k = key then some v else assocLookup rest key

/-- Python `d.get(key, default)`. -/
def dictGet (kvs : List (String × JValue)) (key : String) (default : JValue) : JValue :=
  (assocLookup kvs key).getD default

mutual
/-- Model of `json.dumps(v, indent=2)`.  The exact whitespace layout and string
escaping of the CPython serializer are abstracted (no claim depends on
them); the structure-directed serialization is kept. -/
def dumpsV : JValue → String
  | .null => "null"
  | .bool true => "true"
  | .bool false => "false"
  | .num n => toString n
  | .str s => "\"" ++ s ++ "\""
  | .arr l => "[" ++ dumpsL l ++ "]"
  | .obj l => "\x7b" ++ dumpsO l ++ "\x7d"

/-- Comma-separated serialization of a JSON array body. -/
def dumpsL : List JValue → String
  | [] => ""
  | [v] => dumpsV v
  | v :: rest => dumpsV v ++ ", " ++ dumpsL rest

/-- Comma-separated serialization of a JSON object body. -/
def dumpsO : List (String × JValue) → String
  | [] => ""
  | [(k, v)] => "\"" ++ k ++ "\": " ++ dumpsV v
  | (k, v) :: rest => "\"" ++ k ++ "\": " ++ dumpsV v ++ ", " ++ dumpsO rest
end

/-- Python `str(v)` on a `JValue` (`str` is the identity on strings,
`None`/`True`/`False` print capitalized, numbers print as decimal).
Dict/list contents are only ever serialized through `dumpsV` in the code
paths the claims mention, so their `str` form is approximated by the same
serializer. -/
def pyStr : JValue → String
  | .str s => s
  | .null => "None"
  | .bool true => "True"
  | .bool false => "False"
  | .num n => toString n
  | v => dumpsV v

/-- Python truthiness of a `JValue` (`if not steps: ...`). -/
def jTruthy : JValue → Bool
  | .null => false
  | .bool b => b
  | .num n => n ≠ 0
  | .str s => s ≠ ""
  | .arr l => !l.isEmpty
  | .obj l => !l.isEmpty

/-! ## `server/memory.py` — `ConversationMemory` -/

/-- One entry of the conversation log: `{"role": role, "content": content}`. -/
structure Message where
  role : String
  content : JValue

/-- The class `ConversationMemory` of `server/memory.py`: an ordered log of
role-tagged messages. -/
structure ConversationMemory where
  messages : List Message

/-- Constructor `ConversationMemory.__init__(system_prompt="")`: start empty, seeding a
leading `"system"` entry when `system_prompt` is truthy (non-empty). -/
def ConversationMemory.init (system_prompt : String) : ConversationMemory :=
  if system_prompt = "" then ⟨[]⟩ else ⟨[⟨"system", .str system_prompt⟩]⟩

/-- Method `ConversationMemory.add_message(role, content)`: append one entry. -/
def ConversationMemory.add_message (m : ConversationMemory) (role : String)
    (content : JValue) : ConversationMemory :=
  ⟨m.messages ++ [⟨role, content⟩]⟩

/-- The `formatted_msg` built for one entry by `get_context`:
`f"\n\n[{msg['role']}]\n{content_str}"`, where dict/list content is
serialized (`f"json\n{json.dumps(content, indent=2)}"`) and any other
content rendered with `str`. -/
def format_message (m : Message) : String :=
  let content_str :=
    match m.content with
    | .obj kvs => "json\n" ++ dumpsV (.obj kvs)
    | .arr l => "json\n" ++ dumpsV (.arr l)
    | c => pyStr c
  "\n\n[" ++ m.role ++ "]\n" ++ content_str

/-- The loop of `get_context`: walk the (already reversed, i.e.
newest-first) entries, skip `"system"` entries, prepend each formatted
entry to the accumulator, and stop (`break`) at the first entry whose
addition would push the accumulated length past `max_tokens`. -/
def get_context_go : List Message → Nat → String → String
  | [], _, acc => acc
  | m :: rest, max_tokens, acc =>
    if m.role = "system" then get_context_go rest max_tokens acc
    else
      let formatted := format_message m
      if acc.length + formatted.length > max_tokens then acc
      else get_context_go rest max_tokens (formatted ++ acc)

/-- Method `ConversationMemory.get_context(max_tokens=4096)` with the name `json`
resolved to the serializer (the intent of the source; `memory.py` in fact
never imports `json` — the behaviour as written is `get_contextW` below). -/
def ConversationMemory.get_context (m : ConversationMemory) (max_tokens : Nat) : String :=
  get_context_go m.messages.reverse max_tokens ""

/-- State-passing reading of the `get_context` method: the source reads
`self.messages` and performs no assignment, so the post-state is returned
unchanged alongside the rendered string. -/
def ConversationMemory.get_contextM (m : ConversationMemory) (max_tokens : Nat) :
    String × ConversationMemory :=
  (m.get_context max_tokens, m)

/-- A Python exception, as an orchestration-level value. -/
inductive PyExc where
  | nameError : String → PyExc
deriving DecidableEq

/-- The loop of `get_context` exactly as written in `memory.py`: the module
never imports `json`, so evaluating `json.dumps(msg['content'], indent=2)`
for dict/list content raises `NameError: name 'json' is not defined`
(reaching the branch at all aborts the render). -/
def get_contextW_go : List Message → Nat → String → Except PyExc String
  | [], _, acc => .ok acc
  | m :: rest, max_tokens, acc =>
    if m.role = "system" then get_contextW_go rest max_tokens acc
    else
      match m.content with
      | .obj _ => .error (.nameError "json")
      | .arr _ => .error (.nameError "json")
      | c =>
        let formatted := "\n\n[" ++ m.role ++ "]\n" ++ pyStr c
        if acc.length + formatted.length > max_tokens then .ok acc
        else get_contextW_go rest max_tokens (formatted ++ acc)

/-- Method `ConversationMemory.get_context` as written (see `get_contextW_go`). -/
def ConversationMemory.get_contextW (m : ConversationMemory) (max_tokens : Nat) :
    Except PyExc String :=
  get_contextW_go m.messages.reverse max_tokens ""

/-- Method `ConversationMemory.clear()`: reset the log, re-inserting
`self.messages[0]` when it exists and has role `"system"`. -/
def ConversationMemory.clear (m : ConversationMemory) : ConversationMemory :=
  match m.messages with
  | [] => ⟨[]⟩
  | e :: _ => if e.role = "system" then ⟨[e]⟩ else ⟨[]⟩

/-! ## `server/agents.py` — the Memory-based `run_flow`

`agents.py` contains two divergent `run_flow` implementations; the spec
(and the claims) follow the Memory-based one at lines 102–138, whose loop
body this section translates.  The external collaborators are parameters:
`loads` is `json.loads`, `run_tool` the tool dispatcher (total: `tools.py`
catches every tool exception and returns an error-status dict), `ask` the
execution-model HTTP call (which can raise).  `pick_model` only chooses
model identifiers, so the chosen planner/execution models are plain
`String` inputs. -/

/-- Table `ROLE_PROMPTS` from `agents.py`. -/
def ROLE_PROMPTS : List (String × String) :=
  [("writer", "You are a senior software engineer. Be concise, show code blocks when needed."),
   ("reviewer", "You are a code reviewer. Point out issues and suggest diffs/patches."),
   ("tester", "You are a QA/tester. Provide reproducible steps and lightweight tests.")]

/-- Lookup `ROLE_PROMPTS.get(role, "")`: the system prompt resolved for a role —
the fallback for an unrecognized role is the empty string. -/
def rolePromptFor (role : String) : String :=
  (assocLookup ROLE_PROMPTS role).getD ""

/-- The defensive cleanup applied to the planner response before parsing:
`plan_response.strip().replace('\n', '').replace('```json', '').replace('```', '')`. -/
def clean (plan_response : String) : String :=
  pyReplace (pyReplace (pyReplace (pyStrip plan_response) "\n" "") "```json" "") "```" ""

/-- The role of a step: `st.get("role", "writer")`.  A non-string role
value is coerced through `str` (observationally equivalent for every claim:
no non-string value prints as a `ROLE_PROMPTS` key or as `"system"`). -/
def roleOf (kvs : List (String × JValue)) : String :=
  match assocLookup kvs "role" with
  | none => "writer"
  | some v => pyStr v

/-- The instruction of a step: `st.get('instruction', '')` as rendered
into the f-string. -/
def instrOf (kvs : List (String × JValue)) : String :=
  match assocLookup kvs "instruction" with
  | none => ""
  | some v => pyStr v

/-- The prompt composed for a role step:
`f"{sys_prompt}\n\nOverall Goal:\n{req.instructions}\n\nConversation History:\n{context}\n\nYour current step ({role} #{i}):\n{st.get('instruction','')}\n"`. -/
def composePrompt (sys_prompt goal context role : String) (i : Nat) (instruction : String) :
    String :=
  sys_prompt ++ "\n\nOverall Goal:\n" ++ goal ++ "\n\nConversation History:\n" ++ context ++
    "\n\nYour current step (" ++ role ++ " #" ++ toString i ++ "):\n" ++ instruction ++ "\n"

/-- An orchestration-level failure of `run_flow`. -/
inductive FlowErr where
  /-- A `fastapi.HTTPException(status_code, detail)` raised by `run_flow`. -/
  | http : Nat → String → FlowErr
  /-- An exception of the execution-model call `ask` propagating out of the
  step loop (the loop has no handler). -/
  | provider : String → FlowErr
  /-- An uncaught `TypeError`/`AttributeError` from a malformed plan shape
  reaching the execution loop. -/
  | uncaught : String → FlowErr
deriving DecidableEq

/-- Structure `FlowRes`: the response model of `run_flow`. -/
structure FlowRes where
  model : String
  transcript : List Message

/-- The body of one iteration of the execution loop, given the `context`
string computed at the top of the iteration.  A `tool_call` step is
dispatched to `run_tool` and recorded under `tool_output:<name>`; any other
step is a role step: resolve the role's system prompt, compose the prompt,
call `ask` (whose exception, if any, propagates — there is no handler) and
record the output under the role. -/
def execStep1 (goal execution_model : String)
    (run_tool : JValue → JValue → JValue)
    (ask : String → String → Except String String)
    (i : Nat) (st : JValue) (mem : ConversationMemory) (context : String) :
    Except FlowErr ConversationMemory :=
  match st with
  | .obj kvs =>
    match assocLookup kvs "tool_call" with
    | some (.obj tckvs) =>
      let tool_name := dictGet tckvs "name" .null
      let tool_args := dictGet tckvs "args" (.obj [])
      let result := run_tool tool_name tool_args
      .ok (mem.add_message ("tool_output:" ++ pyStr tool_name) result)
    | some _ =>
      .error (.uncaught "AttributeError: 'tool_call' value has no attribute 'get'")
    | none =>
      let role := roleOf kvs
      let sys_prompt := rolePromptFor role
      let prompt := composePrompt sys_prompt goal context role i (instrOf kvs)
      match ask execution_model prompt with
      | .ok out => .ok (mem.add_message role (.str out))
      | .error e => .error (.provider e)
  | _ => .error (.uncaught "AttributeError: step is not a dict")

/-- The execution loop `for i, st in enumerate(steps, 1)`.  Besides the
final memory it returns, in order, the `context` string computed by
`memory.get_context()` at the top of each executed iteration. -/
def execLoop (goal execution_model : String)
    (run_tool : JValue → JValue → JValue)
    (ask : String → String → Except String String) :
    List JValue → Nat → ConversationMemory →
    List String × Except FlowErr ConversationMemory
  | [], _, mem => ([], .ok mem)
  | st :: rest, i, mem =>
    let context := mem.get_context 4096
    match execStep1 goal execution_model run_tool ask i st mem context with
    | .error e => ([context], .error e)
    | .ok mem' =>
      let r := execLoop goal execution_model run_tool ask rest (i + 1) mem'
      (context :: r.1, r.2)

/-- Message text (in the style of `str(e)`) of the `AttributeError` raised by
`plan_data.get("steps", [])` when the parsed plan is not a dict. -/
def attrMsg (v : JValue) : String :=
  let tyName :=
    match v with
    | .null => "NoneType"
    | .bool _ => "bool"
    | .num _ => "int"
    | .str _ => "str"
    | .arr _ => "list"
    | .obj _ => "dict"
  "'" ++ tyName ++ "' object has no attribute 'get'"

/-- Endpoint `run_flow` (the Memory-based implementation, `agents.py` lines
102–138).  Planning: clean the planner response, `json.loads` it, extract
`steps`; any failure there (parse error, non-dict plan, falsy `steps`) is
caught and re-raised as `HTTPException(500, f"Planner failed: {e}.
Response was: {plan_response}")`.  Execution: seed a fresh
`ConversationMemory` with the plan entry and run the step loop; the final
transcript is `memory.messages`.  (`agents.py` never imports
`ConversationMemory`; as with `json` in `memory.py`, the name is resolved
to the intended class.) -/
def run_flow (goal plan_response execution_model : String)
    (loads : String → Except String JValue)
    (run_tool : JValue → JValue → JValue)
    (ask : String → String → Except String String) :
    Except FlowErr FlowRes :=
  match loads (clean plan_response) with
  | .error msg =>
    .error (.http 500 ("Planner failed: " ++ msg ++ ". Response was: " ++ plan_response))
  | .ok plan_data =>
    match plan_data with
    | .obj kvs =>
      let stepsVal := dictGet kvs "steps" (.arr [])
      if jTruthy stepsVal then
        match stepsVal with
        | .arr steps =>
          let memory := (ConversationMemory.init "").add_message "planner" (.obj kvs)
          match (execLoop goal execution_model run_tool ask steps 1 memory).2 with
          | .ok final => .ok ⟨execution_model, final.messages⟩
          | .error e => .error e
        | _ => .error (.uncaught "TypeError: 'steps' value is not iterable")
      else
        .error (.http 500 ("Planner failed: 400: Planner failed to generate steps.. Response was: "
          ++ plan_response))
    | _ =>
      .error (.http 500 ("Planner failed: " ++ attrMsg plan_data ++ ". Response was: "
        ++ plan_response))


/-! ## Shape predicates used by the theorems -/

/-- Entries that `get_context` renders: everything except `"system"`. -/
def nonSystem (m : Message) : Bool :=
  m.role != "system"

/-- A plan step the execution loop can process without an uncaught
exception of its own: a dict, whose `tool_call` value (when present) is a
dict. -/
def stepOKb : JValue → Bool
  | .obj kvs =>
    match assocLookup kvs "tool_call" with
    | some (.obj _) => true
    | some _ => false
    | none => true
  | _ => false

/-- Every step of the plan is processable (see `stepOKb`). -/
def WellShaped (steps : List JValue) : Prop :=
  steps.all stepOKb = true

/-- The execution-model gateway returns generated text on every call (no
provider exception). -/
def AskTotal (ask : String → String → Except String String) : Prop :=
  ∀ model prompt, ∃ out, ask model prompt = .ok out

/-- The relation between a plan step and the Memory entry its execution
records: a `tool_call` step yields the `tool_output:<name>`-tagged raw
tool result for `(name, args-defaulting-to-{})`; any other step yields a
text entry tagged with the step's role. -/
def stepMsgRel (run_tool : JValue → JValue → JValue) (st : JValue) (msg : Message) : Prop :=
  match st with
  | .obj kvs =>
    match assocLookup kvs "tool_call" with
    | some (.obj tckvs) =>
      msg = ⟨"tool_output:" ++ pyStr (dictGet tckvs "name" .null),
             run_tool (dictGet tckvs "name" .null) (dictGet tckvs "args" (.obj []))⟩
    | some _ => False
    | none => msg.role = roleOf kvs ∧ ∃ out, msg.content = .str out
  | _ => False

/-! ## Concrete gateways and plans used to instantiate the theorems -/

/-- A one-tool-step plan step: `{"tool_call": {"name": "read_file"}}`. -/
def toolStep : JValue :=
  .obj [("tool_call", .obj [("name", .str "read_file")])]

/-- The parsed plan object holding the single `toolStep`. -/
def toolPlanKvs : List (String × JValue) :=
  [("steps", .arr [toolStep])]

/-- A `json.loads` oracle whose every answer is the one-tool-step plan. -/
def loadsToolPlan : String → Except String JValue :=
  fun _ => .ok (.obj toolPlanKvs)

/-- A `json.loads` oracle that always fails to parse. -/
def loadsFail : String → Except String JValue :=
  fun _ => .error "Expecting value: line 1 column 1 (char 0)"

/-- A tool gateway whose every result is an error-status payload. -/
def toolError : JValue → JValue → JValue :=
  fun _ _ => .obj [("status", .str "error"), ("error_message", .str "Tool not found.")]

/-- A model gateway that always returns the text `"out"`. -/
def askOut : String → String → Except String String :=
  fun _ _ => .ok "out"

/-- The final memory of the run `execLoop` performs on `[toolStep]` from a
seeded plan entry, with the `toolError` tool gateway. -/
def finWitness : ConversationMemory :=
  ⟨[⟨"planner", .obj toolPlanKvs⟩,
    ⟨"tool_output:read_file",
      .obj [("status", .str "error"), ("error_message", .str "Tool not found.")]⟩]⟩

/-! ## Helper lemmas -/

theorem strConcat_append (a b : List String) :
    strConcat (a ++ b) = strConcat a ++ strConcat b := by
  induction a with
  | nil => simp [strConcat, String.empty_append]
  | cons s rest ih => simp [strConcat, ih, String.append_assoc]

theorem get_context_go_length (l : List Message) (t : Nat) :
    ∀ acc : String, acc.length ≤ t → (get_context_go l t acc).length ≤ t := by
  induction l with
  | nil => intro acc h; exact h
  | cons m rest ih =>
    intro acc h
    by_cases hs : m.role = "system"
    · rw [get_context_go, if_pos hs]; exact ih acc h
    · rw [get_context_go, if_neg hs]
      by_cases hb : acc.length + (format_message m).length > t
      · rw [if_pos hb]; exact h
      · rw [if_neg hb]
        exact ih _ (by rw [String.length_append]; omega)

theorem get_context_go_split (t : Nat) :
    ∀ (l : List Message) (acc : String),
      ∃ l₁ l₂, l.filter nonSystem = l₁ ++ l₂ ∧
        get_context_go l t acc = strConcat (l₁.reverse.map format_message) ++ acc := by
  intro l
  induction l with
  | nil =>
    intro acc
    exact ⟨[], [], rfl, by simp [get_context_go, strConcat, String.empty_append]⟩
  | cons m rest ih =>
    intro acc
    by_cases hs : m.role = "system"
    · obtain ⟨l₁, l₂, hf, he⟩ := ih acc
      refine ⟨l₁, l₂, ?_, ?_⟩
      · rw [List.filter_cons_of_neg (by simp [nonSystem, hs])]; exact hf
      · rw [get_context_go, if_pos hs]; exact he
    · by_cases hb : acc.length + (format_message m).length > t
      · refine ⟨[], m :: rest.filter nonSystem, ?_, ?_⟩
        · rw [List.filter_cons_of_pos (by simp [nonSystem, hs])]; rfl
        · rw [get_context_go, if_neg hs, if_pos hb]
          simp [strConcat, String.empty_append]
      · obtain ⟨l₁, l₂, hf, he⟩ := ih (format_message m ++ acc)
        refine ⟨m :: l₁, l₂, ?_, ?_⟩
        · rw [List.filter_cons_of_pos (by simp [nonSystem, hs]), hf]; rfl
        · rw [get_context_go, if_neg hs, if_neg hb, he]
          simp [strConcat_append, strConcat, String.append_empty, String.append_assoc]

theorem get_context_go_filter (t : Nat) :
    ∀ (l : List Message) (acc : String),
      get_context_go l t acc = get_context_go (l.filter nonSystem) t acc := by
  intro l
  induction l with
  | nil => intro acc; rfl
  | cons m rest ih =>
    intro acc
    by_cases hs : m.role = "system"
    · rw [get_context_go, if_pos hs, List.filter_cons_of_neg (by simp [nonSystem, hs])]
      exact ih acc
    · rw [get_context_go, if_neg hs, List.filter_cons_of_pos (by simp [nonSystem, hs]),
        get_context_go, if_neg hs]
      by_cases hb : acc.length + (format_message m).length > t
      · rw [if_pos hb, if_pos hb]
      · rw [if_neg hb, if_neg hb]; exact ih _

theorem execStep1_ok_append {goal em : String} {run_tool : JValue → JValue → JValue}
    {ask : String → String → Except String String} {i : Nat} {st : JValue}
    {mem mem' : ConversationMemory} {ctx : String}
    (h : execStep1 goal em run_tool ask i st mem ctx = .ok mem') :
    ∃ msg, mem' = ⟨mem.messages ++ [msg]⟩ ∧ stepMsgRel run_tool st msg := by
  cases st with
  | obj kvs =>
    rw [execStep1] at h
    cases htc : assocLookup kvs "tool_call" with
    | some tc =>
      simp only [htc] at h
      cases tc with
      | obj tckvs =>
        refine ⟨⟨"tool_output:" ++ pyStr (dictGet tckvs "name" .null),
          run_tool (dictGet tckvs "name" .null) (dictGet tckvs "args" (.obj []))⟩, ?_, ?_⟩
        · injection h with h2
          rw [← h2]
          rfl
        · simp only [stepMsgRel, htc]
      | null => simp at h
      | bool b => simp at h
      | num n => simp at h
      | str s => simp at h
      | arr l => simp at h
    | none =>
      simp only [htc] at h
      cases hask : ask em (composePrompt (rolePromptFor (roleOf kvs)) goal ctx (roleOf kvs) i
          (instrOf kvs)) with
      | ok out =>
        simp only [hask] at h
        refine ⟨⟨roleOf kvs, .str out⟩, ?_, ?_⟩
        · injection h with h2
          rw [← h2]
          rfl
        · simp [stepMsgRel, htc]
      | error e =>
        simp only [hask] at h
        simp at h
  | null => simp [execStep1] at h
  | bool b => simp [execStep1] at h
  | num n => simp [execStep1] at h
  | str s => simp [execStep1] at h
  | arr l => simp [execStep1] at h

theorem execStep1_total {goal em : String} {run_tool : JValue → JValue → JValue}
    {ask : String → String → Except String String} {i : Nat} {st : JValue}
    {mem : ConversationMemory} {ctx : String}
    (hs : stepOKb st = true) (ha : AskTotal ask) :
    ∃ mem', execStep1 goal em run_tool ask i st mem ctx = .ok mem' := by
  cases st with
  | obj kvs =>
    rw [execStep1]
    cases htc : assocLookup kvs "tool_call" with
    | some tc =>
      cases tc with
      | obj tckvs =>
        simp only [htc]
        exact ⟨_, rfl⟩
      | null => simp only [stepOKb, htc] at hs; exact Bool.noConfusion hs
      | bool b => simp only [stepOKb, htc] at hs; exact Bool.noConfusion hs
      | num n => simp only [stepOKb, htc] at hs; exact Bool.noConfusion hs
      | str s => simp only [stepOKb, htc] at hs; exact Bool.noConfusion hs
      | arr l => simp only [stepOKb, htc] at hs; exact Bool.noConfusion hs
    | none =>
      obtain ⟨out, hout⟩ := ha em (composePrompt (rolePromptFor (roleOf kvs)) goal ctx
        (roleOf kvs) i (instrOf kvs))
      simp only [htc, hout]
      exact ⟨_, rfl⟩
  | null => simp [stepOKb] at hs
  | bool b => simp [stepOKb] at hs
  | num n => simp [stepOKb] at hs
  | str s => simp [stepOKb] at hs
  | arr l => simp [stepOKb] at hs

theorem execLoop_ok {goal em : String} {run_tool : JValue → JValue → JValue}
    {ask : String → String → Except String String} :
    ∀ (steps : List JValue) (i : Nat) (mem fin : ConversationMemory),
      (execLoop goal em run_tool ask steps i mem).2 = .ok fin →
      ∃ outs : List Message,
        fin.messages = mem.messages ++ outs ∧
        outs.length = steps.length ∧
        (∀ j, j < steps.length →
          (execLoop goal em run_tool ask steps i mem).1.get? j =
            some (ConversationMemory.get_context ⟨mem.messages ++ outs.take j⟩ 4096)) ∧
        (∀ j (hj : j < steps.length) (hj' : j < outs.length),
          stepMsgRel run_tool (steps.get ⟨j, hj⟩) (outs.get ⟨j, hj'⟩)) := by
  intro steps
  induction steps with
  | nil =>
    intro i mem fin h
    injection h with h2
    refine ⟨[], ?_, rfl, ?_, ?_⟩
    · rw [← h2]; simp
    · intro j hj; exact absurd hj (by simp)
    · intro j hj; exact absurd hj (by simp)
  | cons st rest ih =>
    intro i mem fin h
    rw [execLoop] at h
    cases hstep : execStep1 goal em run_tool ask i st mem (mem.get_context 4096) with
    | error e =>
      rw [hstep] at h
      exact absurd h (by simp)
    | ok mem' =>
      rw [hstep] at h
      simp only at h
      obtain ⟨msg, hmem', hrel⟩ := execStep1_ok_append hstep
      obtain ⟨outs', h1, h2, h3, h4⟩ := ih (i + 1) mem' fin h
      refine ⟨msg :: outs', ?_, by simp [h2], ?_, ?_⟩
      · rw [h1, hmem']; simp
      · intro j hj
        have hfst : (execLoop goal em run_tool ask (st :: rest) i mem).1 =
            mem.get_context 4096 :: (execLoop goal em run_tool ask rest (i + 1) mem').1 := by
          rw [execLoop, hstep]
        rw [hfst]
        cases j with
        | zero =>
          simp only [List.get?]
          congr 1
          simp
        | succ j =>
          simp only [List.get?]
          rw [h3 j (by simpa using hj), hmem']
          simp
      · intro j hj hj'
        cases j with
        | zero => exact hrel
        | succ j => exact h4 j (by simpa using hj) (by simpa using hj')

theorem execLoop_total {goal em : String} {run_tool : JValue → JValue → JValue}
    {ask : String → String → Except String String} (ha : AskTotal ask) :
    ∀ (steps : List JValue) (i : Nat) (mem : ConversationMemory), WellShaped steps →
      ∃ fin, (execLoop goal em run_tool ask steps i mem).2 = .ok fin := by
  intro steps
  induction steps with
  | nil => intro i mem _; exact ⟨mem, rfl⟩
  | cons st rest ih =>
    intro i mem hws
    have hok : stepOKb st = true := by
      have := hws
      rw [WellShaped, List.all_cons] at this
      exact (Bool.and_eq_true _ _ |>.mp this).1
    have hrest : WellShaped rest := by
      have := hws
      rw [WellShaped, List.all_cons] at this
      exact (Bool.and_eq_true _ _ |>.mp this).2
    obtain ⟨mem', hstep⟩ :=
      @execStep1_total goal em run_tool ask i st mem (mem.get_context 4096) hok ha
    obtain ⟨fin, hfin⟩ := ih (i + 1) mem' hrest
    refine ⟨fin, ?_⟩
    rw [execLoop, hstep]
    exact hfin

/-! ## Claim theorems -/

/-- Claim C4 (code bug in the source): `memory.py` never imports `json`,
so as soon as `get_context` reaches an entry whose content is a dict or
list it evaluates `json.dumps(...)` and raises `NameError: name 'json' is
not defined` instead of serializing the content (let alone falling back to
its string representation).  This evaluates the as-written method at the
very input `run_flow` itself produces (the seeded plan entry). -/
theorem get_context_raises_nameerror :
    ConversationMemory.get_contextW ⟨[⟨"planner", .obj [("steps", .arr [])]⟩]⟩ 4096 =
      .error (.nameError "json") := rfl

/-- Claim C5: for every memory state and budget `max_chars`,
`get_context` returns a string of length at most `max_chars` that is the
concatenation of the formatted entries of a contiguous suffix of the
system-entry-free history (older entries are dropped first, kept recent
entries are never dropped), and no `"system"` entry — in particular the
seeded system prompt — is ever rendered. -/
theorem get_context_truncation (msgs : List Message) (max_chars : Nat) :
    (ConversationMemory.get_context ⟨msgs⟩ max_chars).length ≤ max_chars ∧
    ∃ k, ConversationMemory.get_context ⟨msgs⟩ max_chars =
      strConcat (((msgs.filter nonSystem).drop k).map format_message) := by
  constructor
  · exact get_context_go_length _ _ "" (Nat.zero_le _)
  · obtain ⟨l₁, l₂, hf, he⟩ := get_context_go_split max_chars msgs.reverse ""
    refine ⟨l₂.reverse.length, ?_⟩
    have h3 : msgs.filter nonSystem = l₂.reverse ++ l₁.reverse := by
      have h2 : (msgs.filter nonSystem).reverse = l₁ ++ l₂ := by
        rw [← List.filter_reverse]; exact hf
      have := congrArg List.reverse h2
      simpa using this
    show get_context_go msgs.reverse max_chars "" = _
    rw [he, String.append_empty, h3, List.drop_left]

/-- Claim C6: `get_context` is side-effect-free and idempotent: in the
state-passing reading of the method, the memory comes back unchanged and a
second call on the post-state yields the identical string. -/
theorem get_context_idempotent (m : ConversationMemory) (max_tokens : Nat) :
    (m.get_contextM max_tokens).2 = m ∧
    ((m.get_contextM max_tokens).2.get_contextM max_tokens).1 =
      (m.get_contextM max_tokens).1 :=
  ⟨rfl, rfl⟩

/-- Claim C9: `clear()` resets the log to empty except that a leading
system-prompt entry is re-inserted, and a subsequent
`add_message`/`get_context` renders exactly as a memory holding only the
newly added entry — no pre-clear entry (and not the preserved system
prompt) ever appears. -/
theorem clear_resets (m : ConversationMemory) (r : String) (c : JValue) (max_chars : Nat) :
    (m.clear.messages =
      match m.messages.head? with
      | some e => if e.role = "system" then [e] else []
      | none => []) ∧
    (m.clear.add_message r c).get_context max_chars =
      (ConversationMemory.mk [⟨r, c⟩]).get_context max_chars := by
  obtain ⟨msgs⟩ := m
  cases msgs with
  | nil => exact ⟨rfl, rfl⟩
  | cons e rest =>
    by_cases he : e.role = "system"
    · have hc : ConversationMemory.clear ⟨e :: rest⟩ = ⟨[e]⟩ := by
        simp [ConversationMemory.clear, he]
      refine ⟨by simp [hc, he], ?_⟩
      rw [hc]
      show get_context_go [⟨r, c⟩, e] max_chars "" = get_context_go [⟨r, c⟩] max_chars ""
      rw [get_context_go_filter max_chars [⟨r, c⟩, e],
        get_context_go_filter max_chars [⟨r, c⟩]]
      congr 1
      simp [List.filter, nonSystem, he]
    · have hc : ConversationMemory.clear ⟨e :: rest⟩ = ⟨[]⟩ := by
        simp [ConversationMemory.clear, he]
      refine ⟨by simp [hc, he], ?_⟩
      rw [hc]
      rfl

/-- Claim C10: `get_context` excludes every entry whose role is
`"system"`, at any position in the log and for every budget: rendering a
log equals rendering its system-free part, and a system entry appended
later via `add_message` never changes any rendered context. -/
theorem get_context_excludes_system (msgs : List Message) (max_chars : Nat) (c : JValue) :
    ConversationMemory.get_context ⟨msgs⟩ max_chars =
      ConversationMemory.get_context ⟨msgs.filter nonSystem⟩ max_chars ∧
    (ConversationMemory.add_message ⟨msgs⟩ "system" c).get_context max_chars =
      ConversationMemory.get_context ⟨msgs⟩ max_chars := by
  constructor
  · show get_context_go msgs.reverse max_chars "" =
      get_context_go (msgs.filter nonSystem).reverse max_chars ""
    rw [get_context_go_filter max_chars msgs.reverse, List.filter_reverse]
  · show get_context_go (msgs ++ [(⟨"system", c⟩ : Message)]).reverse max_chars "" =
      get_context_go msgs.reverse max_chars ""
    rw [List.reverse_append]
    simp [get_context_go]

/-- Claim C1: whenever the planner response parses (after cleanup) to a
JSON object whose `steps` array has `n ≥ 1` entries — the steps shaped as
the planner protocol prescribes and the execution-model calls returning
text — `run_flow` returns a transcript of exactly `1 + n` entries: one
leading plan entry (role `"planner"`, content the parsed plan) followed by
exactly one entry per executed step, in step order. -/
theorem run_flow_transcript (goal plan_response execution_model : String)
    (loads : String → Except String JValue) (run_tool : JValue → JValue → JValue)
    (ask : String → String → Except String String)
    (kvs : List (String × JValue)) (steps : List JValue)
    (hparse : loads (clean plan_response) = .ok (.obj kvs))
    (hsteps : dictGet kvs "steps" (.arr []) = .arr steps)
    (hne : steps ≠ [])
    (hws : WellShaped steps)
    (hask : AskTotal ask) :
    ∃ outs : List Message,
      run_flow goal plan_response execution_model loads run_tool ask =
        .ok ⟨execution_model, ⟨"planner", .obj kvs⟩ :: outs⟩ ∧
      (⟨"planner", .obj kvs⟩ :: outs : List Message).length = 1 + steps.length ∧
      outs.length = steps.length ∧
      ∀ j (hj : j < steps.length) (hj' : j < outs.length),
        stepMsgRel run_tool (steps.get ⟨j, hj⟩) (outs.get ⟨j, hj'⟩) := by
  have htruthy : jTruthy (.arr steps) = true := by
    cases steps with
    | nil => exact absurd rfl hne
    | cons a l => rfl
  obtain ⟨fin, hfin⟩ := @execLoop_total goal execution_model run_tool ask hask steps 1
    ((ConversationMemory.init "").add_message "planner" (.obj kvs)) hws
  obtain ⟨outs, h1, h2, _, h4⟩ :=
    @execLoop_ok goal execution_model run_tool ask steps 1 _ fin hfin
  have h1' : fin.messages = ⟨"planner", .obj kvs⟩ :: outs := by
    rw [h1]; rfl
  refine ⟨outs, ?_, by simp [h2, Nat.add_comm], h2, h4⟩
  simp only [run_flow, hparse, hsteps, htruthy, if_true, hfin, h1']

/-- Claim C2 (amended): per-step *tool* failures are contained: for every
`run_tool` — in particular one returning `{"status": "error", ...}`
results for some steps (`tools.py` converts every tool exception into such
a result) — every step still executes, its raw result is recorded as that
step's `tool_output:<name>` entry, and the final memory holds exactly one
entry per step in order.  A RoleStep model-call exception, by contrast, is
*not* caught and aborts the run (see the counterexample), which is why the
totality hypothesis on `ask` is required. -/
theorem tool_error_containment (goal em : String) (run_tool : JValue → JValue → JValue)
    (ask : String → String → Except String String) (steps : List JValue)
    (mem0 : ConversationMemory)
    (hws : WellShaped steps) (hask : AskTotal ask) :
    ∃ (outs : List Message) (fin : ConversationMemory),
      (execLoop goal em run_tool ask steps 1 mem0).2 = .ok fin ∧
      fin.messages = mem0.messages ++ outs ∧
      outs.length = steps.length ∧
      ∀ j (hj : j < steps.length) (hj' : j < outs.length),
        stepMsgRel run_tool (steps.get ⟨j, hj⟩) (outs.get ⟨j, hj'⟩) := by
  obtain ⟨fin, hfin⟩ := execLoop_total hask steps 1 mem0 hws
  obtain ⟨outs, h1, h2, _, h4⟩ := execLoop_ok steps 1 mem0 fin hfin
  exact ⟨outs, fin, hfin, h1, h2, h4⟩

/-- Claim C2 counterexample: the step loop has no exception handler, so a
RoleStep whose model call raises aborts the whole run — at this concrete
two-step plan the exception propagates out of `run_flow`, no transcript is
produced and the second step never executes, contradicting the claim that
the failure is recorded as the step's output and the loop continues. -/
theorem role_exception_aborts :
    run_flow "g" "r" "m"
      (fun _ => .ok (.obj [("steps",
        .arr [.obj [("instruction", .str "a")], .obj [("instruction", .str "b")]])]))
      (fun _ _ => .null) (fun _ _ => .error "boom") = .error (.provider "boom") := rfl

/-- Claim C3: if the planner response is unparsable as JSON after cleanup,
or parses to a plan whose `steps` value is missing/empty (falsy), then
`run_flow` fails with a planning error whose detail ends with the raw
planner response, and the result is the same for every tool gateway and
every execution-model gateway — no tool execution and no execution-role
model call is ever made. -/
theorem planning_failure (goal plan_response execution_model : String)
    (loads : String → Except String JValue)
    (H : ∀ kvs, loads (clean plan_response) = .ok (.obj kvs) →
      jTruthy (dictGet kvs "steps" (.arr [])) = false) :
    ∃ pre, ∀ (run_tool : JValue → JValue → JValue)
      (ask : String → String → Except String String),
      run_flow goal plan_response execution_model loads run_tool ask =
        .error (.http 500 (pre ++ plan_response)) := by
  cases hl : loads (clean plan_response) with
  | error msg =>
    exact ⟨"Planner failed: " ++ msg ++ ". Response was: ",
      fun run_tool ask => by simp only [run_flow, hl]⟩
  | ok v =>
    cases v with
    | obj kvs =>
      have hfalse := H kvs hl
      exact ⟨"Planner failed: 400: Planner failed to generate steps.. Response was: ",
        fun run_tool ask => by simp only [run_flow, hl, hfalse, if_false, Bool.false_eq_true]⟩
    | null =>
      exact ⟨"Planner failed: " ++ attrMsg .null ++ ". Response was: ",
        fun run_tool ask => by simp only [run_flow, hl]⟩
    | bool b =>
      exact ⟨"Planner failed: " ++ attrMsg (.bool b) ++ ". Response was: ",
        fun run_tool ask => by simp only [run_flow, hl]⟩
    | num n =>
      exact ⟨"Planner failed: " ++ attrMsg (.num n) ++ ". Response was: ",
        fun run_tool ask => by simp only [run_flow, hl]⟩
    | str s =>
      exact ⟨"Planner failed: " ++ attrMsg (.str s) ++ ". Response was: ",
        fun run_tool ask => by simp only [run_flow, hl]⟩
    | arr l =>
      exact ⟨"Planner failed: " ++ attrMsg (.arr l) ++ ". Response was: ",
        fun run_tool ask => by simp only [run_flow, hl]⟩

/-- Claim C7: during one run, Memory entries are appended in strict step
order, and the context rendered at the start of step `i` is exactly the
rendering of the seed plan entry plus the outputs of steps `1..i-1` —
never an entry produced by step `i` or any later step (the rendered string
is a function of that prefix alone). -/
theorem context_reflects_prior_steps (goal em : String)
    (run_tool : JValue → JValue → JValue) (ask : String → String → Except String String)
    (steps : List JValue) (plan : JValue) (fin : ConversationMemory)
    (h : (execLoop goal em run_tool ask steps 1 ⟨[⟨"planner", plan⟩]⟩).2 = .ok fin) :
    ∃ outs : List Message,
      fin.messages = ⟨"planner", plan⟩ :: outs ∧
      outs.length = steps.length ∧
      ∀ j, j < steps.length →
        (execLoop goal em run_tool ask steps 1 ⟨[⟨"planner", plan⟩]⟩).1.get? j =
          some (ConversationMemory.get_context ⟨⟨"planner", plan⟩ :: outs.take j⟩ 4096) := by
  obtain ⟨outs, h1, h2, h3, _⟩ :=
    @execLoop_ok goal em run_tool ask steps 1 ⟨[⟨"planner", plan⟩]⟩ fin h
  refine ⟨outs, by rw [h1]; rfl, h2, ?_⟩
  intro j hj
  rw [h3 j hj]
  rfl

/-- Claim C8 (amended): a step with a `tool_call` key is dispatched to the
tool gateway with `(name, args-defaulting-to-{})` and recorded under
`tool_output:<name>`; any other step is a RoleStep whose role defaults to
`"writer"` when the key is absent, whose composed prompt (see
`composePrompt`) carries the goal, the rendered context and the step's
instruction, and whose output is recorded under the step's role.  For an
*unrecognized* role, however, the resolved system prompt is the empty
string (`ROLE_PROMPTS.get(role, "")`), not the `"writer"` persona the
claim states. -/
theorem step_dispatch (goal em : String) (run_tool : JValue → JValue → JValue)
    (ask : String → String → Except String String) (i : Nat)
    (mem : ConversationMemory) (ctx : String) (kvs : List (String × JValue)) :
    (∀ tckvs, assocLookup kvs "tool_call" = some (.obj tckvs) →
      execStep1 goal em run_tool ask i (.obj kvs) mem ctx =
        .ok (mem.add_message ("tool_output:" ++ pyStr (dictGet tckvs "name" .null))
          (run_tool (dictGet tckvs "name" .null) (dictGet tckvs "args" (.obj []))))) ∧
    (assocLookup kvs "tool_call" = none →
      execStep1 goal em run_tool ask i (.obj kvs) mem ctx =
        (match ask em (composePrompt (rolePromptFor (roleOf kvs)) goal ctx (roleOf kvs) i
            (instrOf kvs)) with
         | .ok out => .ok (mem.add_message (roleOf kvs) (.str out))
         | .error e => .error (.provider e))) ∧
    (assocLookup kvs "role" = none → roleOf kvs = "writer") ∧
    rolePromptFor "writer" =
      "You are a senior software engineer. Be concise, show code blocks when needed." ∧
    (∀ role, assocLookup ROLE_PROMPTS role = none → rolePromptFor role = "") := by
  refine ⟨?_, ?_, ?_, rfl, ?_⟩
  · intro tckvs htc
    simp only [execStep1, htc]
  · intro htc
    simp only [execStep1, htc]
  · intro hrole
    simp only [roleOf, hrole]
  · intro role hrole
    simp only [rolePromptFor, hrole, Option.getD_none]

/-- Claim C8 counterexample: the role `"poet"` is unrecognized, its
resolved system prompt is `""` rather than the `"writer"` persona, and the
prompt actually sent for a `"poet"` step (exposed here through an echoing
model gateway) differs from the prompt the claim predicts (one opening
with the writer persona). -/
theorem unrecognized_role_gets_empty_prompt :
    rolePromptFor "poet" = "" ∧
    execStep1 "g" "m" (fun _ _ => .null) (fun _ p => .ok p) 1
      (.obj [("role", .str "poet"), ("instruction", .str "x")]) ⟨[]⟩ "" =
      .ok ⟨[⟨"poet", .str "\n\nOverall Goal:\ng\n\nConversation History:\n\n\nYour current step (poet #1):\nx\n"⟩]⟩ ∧
    composePrompt (rolePromptFor "writer") "g" "" "poet" 1 "x" ≠
      "\n\nOverall Goal:\ng\n\nConversation History:\n\n\nYour current step (poet #1):\nx\n" := by
  refine ⟨rfl, rfl, ?_⟩
  decide

/-- Witness for Claim C1 at a concrete one-tool-step run. -/
theorem run_flow_transcript_witness :
    ∃ outs : List Message,
      run_flow "g" "r" "m" loadsToolPlan toolError askOut =
        .ok ⟨"m", ⟨"planner", .obj toolPlanKvs⟩ :: outs⟩ ∧
      (⟨"planner", .obj toolPlanKvs⟩ :: outs : List Message).length = 1 + [toolStep].length ∧
      outs.length = [toolStep].length ∧
      ∀ j (hj : j < [toolStep].length) (hj' : j < outs.length),
        stepMsgRel toolError ([toolStep].get ⟨j, hj⟩) (outs.get ⟨j, hj'⟩) :=
  run_flow_transcript "g" "r" "m" loadsToolPlan toolError askOut toolPlanKvs [toolStep]
    rfl rfl (List.cons_ne_nil _ _) rfl (fun _ _ => ⟨"out", rfl⟩)

/-- Witness for the amended Claim C2 theorem at a concrete run whose two
tool steps both return an error-status result. -/
theorem tool_error_containment_witness :
    ∃ (outs : List Message) (fin : ConversationMemory),
      (execLoop "g" "m" toolError askOut [toolStep, toolStep] 1 ⟨[]⟩).2 = .ok fin ∧
      fin.messages = (⟨[]⟩ : ConversationMemory).messages ++ outs ∧
      outs.length = [toolStep, toolStep].length ∧
      ∀ j (hj : j < [toolStep, toolStep].length) (hj' : j < outs.length),
        stepMsgRel toolError ([toolStep, toolStep].get ⟨j, hj⟩) (outs.get ⟨j, hj'⟩) :=
  tool_error_containment "g" "m" toolError askOut [toolStep, toolStep] ⟨[]⟩ rfl
    (fun _ _ => ⟨"out", rfl⟩)

/-- Witness for Claim C3 at a concrete unparsable planner response. -/
theorem planning_failure_witness :
    ∃ pre, ∀ (run_tool : JValue → JValue → JValue)
      (ask : String → String → Except String String),
      run_flow "Compute." "oops" "m" loadsFail run_tool ask =
        .error (.http 500 (pre ++ "oops")) :=
  planning_failure "Compute." "oops" "m" loadsFail (fun _ h => nomatch h)

/-- Witness for Claim C7 at a concrete one-tool-step run. -/
theorem context_reflects_prior_steps_witness :
    ∃ outs : List Message,
      finWitness.messages = ⟨"planner", .obj toolPlanKvs⟩ :: outs ∧
      outs.length = [toolStep].length ∧
      ∀ j, j < [toolStep].length →
        (execLoop "g" "m" toolError askOut [toolStep] 1
            ⟨[⟨"planner", .obj toolPlanKvs⟩]⟩).1.get? j =
          some (ConversationMemory.get_context
            ⟨⟨"planner", .obj toolPlanKvs⟩ :: outs.take j⟩ 4096) :=
  context_reflects_prior_steps "g" "m" toolError askOut [toolStep] (.obj toolPlanKvs)
    finWitness rfl

/-- Witness for the amended Claim C8 theorem at a concrete tool step. -/
theorem step_dispatch_witness :
    execStep1 "g" "m" toolError askOut 2
      (.obj [("tool_call", .obj [("name", .str "read_file")])]) ⟨[]⟩ "ctx" =
      .ok (ConversationMemory.add_message ⟨[]⟩
        ("tool_output:" ++ pyStr (dictGet [("name", .str "read_file")] "name" .null))
        (toolError (dictGet [("name", .str "read_file")] "name" .null)
          (dictGet [("name", .str "read_file")] "args" (.obj [])))) :=
  (step_dispatch "g" "m" toolError askOut 2 ⟨[]⟩ "ctx"
    [("tool_call", .obj [("name", .str "read_file")])]).1 [("name", .str "read_file")] rfl
